import Mathlib

/-!
Verification development for the basketry/vscode extension.

The TypeScript sources are shallowly embedded: each embedded definition is a
direct translation of the function of the same name in the repository (file
and line references appear in the doc comments).  Host and platform behavior
(JavaScript strings, `Array.prototype.sort`, thrown `Error` objects, the
debounce timer, external process results) is modelled explicitly; the results
of external effects (process exit codes, standard output, file existence)
are inputs of the embedded functions.
-/

namespace BasketryVscode

/-! Section 1: JavaScript platform modelling. -/

/-- Model of a thrown JavaScript `Error`: `name` is the constructor name
(`"Error"`, `"SyntaxError"`, `"RangeError"`), `message` its message. -/
structure JsError where
  name : String
  message : String
deriving DecidableEq, Repr

/-- Model of the JavaScript expression `err.message || err.toString()` used in
the worker's catch block: an empty message is falsy, and `Error.prototype.toString`
on an error with an empty message yields just the constructor name. -/
def jsErrorCarried (e : JsError) : String :=
  if e.message = "" then e.name else e.message

/-- Model of JavaScript truthiness of an optional string (`!!s` and `s &&`):
`undefined` and the empty string are falsy. -/
def jsTruthy : Option String → Bool
  | none => false
  | some s => s ≠ ""

/-- Boolean infix-list test (used to model `String.prototype.includes`). -/
def listContains [DecidableEq α] : (hay needle : List α) → Bool
  | _, [] => true
  | [], _ :: _ => false
  | h :: hs, n :: ns =>
      ((n = h : Bool) && (List.isPrefixOf ns hs)) || listContains hs (n :: ns)

/-- Model of JavaScript `hay.includes(needle)` on strings. -/
def strIncludes (hay needle : String) : Bool :=
  listContains hay.data needle.data

/-- Collation key modelling the default-locale `String.prototype.localeCompare`
on ASCII text: primary strength compares the lowercased character sequence;
ties are broken by case, lowercase ordering before uppercase (ICU default);
a shorter string precedes its extensions (the `0` separator is below every
shifted character code). -/
def collationKey (s : String) : List Nat :=
  s.data.map (fun c => c.toLower.toNat + 1) ++ 0 :: s.data.map (fun c => if c.isUpper then 1 else 0)

/-- Lexicographic three-way comparison of `Nat` lists. -/
def listCompare : List Nat → List Nat → Ordering
  | [], [] => .eq
  | [], _ :: _ => .lt
  | _ :: _, [] => .gt
  | a :: as, b :: bs =>
      match compare a b with
      | .eq => listCompare as bs
      | o => o

/-- Model of `a.localeCompare(b)` in the default locale, as a signed integer
comparator in the shape JavaScript sort callbacks expect. -/
def localeCompare (a b : String) : Int :=
  match listCompare (collationKey a) (collationKey b) with
  | .lt => -1
  | .eq => 0
  | .gt => 1

/-- Model of the stable in-place `Array.prototype.sort(cmp)` (stable since
ES2019): element `a` precedes `b` whenever `cmp a b ≤ 0`.  For a consistent
comparator the stable sort is unique, so it is realized here by a stable
insertion sort. -/
def jsSort (cmp : α → α → Int) (xs : List α) : List α :=
  List.insertionSort (fun a b => cmp a b ≤ 0) xs

/-! Section 2: basketry library data shapes consumed by the extension
(`basketry/lib/types`): violations, errors, CLI output, configuration. -/

/-- Basketry string scalar `{ value, loc? }`; the encoded location string is
carried opaquely (the external `decodeRange` helper is not re-implemented,
no claim inspects decoded locations). -/
structure StringLiteral where
  value : String
  loc : Option String := none
deriving DecidableEq, Repr

/-- Basketry numeric/boolean scalar `{ value, loc? }`. -/
structure Literal (α : Type) where
  value : α
  loc : Option String := none
deriving DecidableEq, Repr

/-- Position of a violation range (1-based line/column, `worker.ts` consumes
it as plain JavaScript numbers, so it is embedded as integers). -/
structure SrcPosition where
  line : Int
  column : Int
deriving DecidableEq, Repr

/-- Violation range `{ start, end }`. The `end` field is named `stop` because
`end` is reserved in Lean. -/
structure SrcRange where
  start : SrcPosition
  stop : SrcPosition
deriving DecidableEq, Repr

/-- Violation severity (`severity: 'error' | 'warning' | 'info'`). -/
inductive Severity where
  | error
  | warning
  | info
deriving DecidableEq, Repr

/-- Violation record reported by the basketry CLI (`basketry/lib/types`). -/
structure Violation where
  severity : Severity
  message : String
  code : String
  sourcePath : String
  range : SrcRange
deriving DecidableEq, Repr

/-- BasketryError record: fatal pipeline failure distinct from a violation. -/
structure BasketryError where
  code : String
  message : String
  filepath : Option String := none
deriving DecidableEq, Repr

/-- Parsed shape of the CLI's validation output (`CliOutput`). -/
structure CliOutput where
  violations : List Violation
  errors : List BasketryError
deriving DecidableEq, Repr

/-- Shape of `basketry.config.json` as used by the extension: whether
`isLocalConfig` holds and the optional `source` field. -/
structure Config where
  isLocal : Bool
  source : Option String
deriving DecidableEq, Repr

/-! Section 3: `createDiagnostic` (`src/worker.ts:298-324`, identically
`src/extension.ts:164-190`). -/

/-- VS Code diagnostic severities used by the extension. -/
inductive DiagnosticSeverity where
  | Error
  | Warning
  | Information
deriving DecidableEq, Repr

/-- A `vscode.Range` as constructed by `createDiagnostic` (0-based
line/character coordinates, as plain JavaScript numbers). -/
structure VsRange where
  startLine : Int
  startColumn : Int
  endLine : Int
  endColumn : Int
deriving DecidableEq, Repr

/-- A `vscode.Diagnostic` with the fields the extension sets. -/
structure Diagnostic where
  range : VsRange
  message : String
  severity : DiagnosticSeverity
  code : String
deriving DecidableEq, Repr

/-- Embedding of `createDiagnostic` (`src/worker.ts:298-324`): builds the
0-based editor range from the 1-based violation range, maps the severity, and
copies message and code. -/
def createDiagnostic (violation : Violation) : Diagnostic :=
  let start := violation.range.start
  let «end» := violation.range.stop
  let range : VsRange :=
    { startLine := start.line - 1
      startColumn := start.column - 1
      endLine := «end».line - 1
      endColumn := «end».column - 1 }
  let severity : DiagnosticSeverity :=
    match violation.severity with
    | .error => .Error
    | .warning => .Warning
    | .info => .Information
  { range := range, message := violation.message, severity := severity
    code := violation.code }

/-! Section 4: the Worker check cycle (`src/worker.ts`). -/

/-- Worker status enum (`src/worker.ts:20`). -/
inductive WorkerStatus where
  | idle
  | running
  | error
  | violations
deriving DecidableEq, Repr

/-- Result record of `exec` (`src/unnamed utils.ts`): captured stdout/stderr,
the exit code (`null`, i.e. `none`, when the 5 s timeout killed the process),
and elapsed milliseconds. -/
structure ExecResult where
  stdout : String
  stderr : String
  code : Option Int
  ms : Nat
deriving DecidableEq, Repr

/-- Environment of one firing of the debounced check body in
`src/worker.ts:124-218`: every external effect the body performs is
represented by its result.  `parseCliOutput`/`parseService` model
`JSON.parse` applied to the respective stdout (`.error m` is a thrown
`SyntaxError` with message `m`; for the service result the payload is the
optional `service` field of the parsed object). -/
structure CheckEnv where
  configRead : Option Config
  isBasketryInstalled : Bool
  validation : ExecResult
  serviceResult : ExecResult
  parseCliOutput : String → Except String CliOutput
  parseService : String → Except String (Option Unit)

/-- Observable outcome of one firing of the debounced check body:
the resulting status, the diagnostics collection contents (pairs of a
document identity and the diagnostics set for it; `[]` means cleared), the
`SHOW_ERROR_COMMAND` events issued, whether a parsed service was stored, and
whether the external tool was invoked at all. -/
structure Fired where
  status : WorkerStatus
  diagnostics : List (String × List Diagnostic)
  events : List BasketryError
  serviceStored : Bool
  invokedTool : Bool
deriving Repr

/-- Model of `new Set(violations.map(v => v.sourcePath))` iterated in
insertion order: first occurrences, in order. -/
def distinctSourcePaths (paths : List String) : List String :=
  paths.foldl (fun acc x => if x ∈ acc then acc else acc ++ [x]) []

/-- Outcome of the catch block in `src/worker.ts:208-217`: status `error`,
diagnostics cleared, and a single `FATAL_ERROR` event carrying
`err.message || err.toString()`. -/
def fatalOutcome (e : JsError) (invoked : Bool) : Fired :=
  { status := .error
    diagnostics := []
    events := [{ code := "FATAL_ERROR", message := jsErrorCarried e }]
    serviceStored := false
    invokedTool := invoked }

/-- Embedding of the body of the debounced timer callback of `Worker.check`
(`src/worker.ts:124-218`).  Control flow is translated directly: the
`isBasketryInstalled` guard clears diagnostics and idles; both `exec` calls
happen next; a `null` exit code throws `Error('Timeout!')`, a non-zero exit
code throws `Error(stderr)`, and a `JSON.parse` failure throws a
`SyntaxError`; on the success path the diagnostics collection is cleared and
then, for each distinct `sourcePath`, set to `violations.map(createDiagnostic)`
(the full, unfiltered list — exactly as the source does), and the final status
is `error` when `errors` is non-empty (issuing one event per reported error),
otherwise `violations`/`idle` by whether `violations` is non-empty. -/
def runCheck (env : CheckEnv) : Fired :=
  if !env.isBasketryInstalled then
    { status := .idle, diagnostics := [], events := [], serviceStored := false
      invokedTool := false }
  else
    let v := env.validation
    let sr := env.serviceResult
    if v.code = none ∨ sr.code = none then
      fatalOutcome { name := "Error", message := "Timeout!" } true
    else if v.code ≠ some 0 ∨ sr.code ≠ some 0 then
      fatalOutcome { name := "Error", message := v.stderr } true
    else
      match env.parseCliOutput v.stdout with
      | .error m => fatalOutcome { name := "SyntaxError", message := m } true
      | .ok output =>
        match env.parseService sr.stdout with
        | .error m => fatalOutcome { name := "SyntaxError", message := m } true
        | .ok svc =>
          let violations := output.violations
          let errors := output.errors
          let documents := distinctSourcePaths (violations.map (·.sourcePath))
          let diags := documents.map (fun d => (d, violations.map createDiagnostic))
          if errors ≠ [] then
            { status := .error, diagnostics := diags, events := errors
              serviceStored := svc.isSome, invokedTool := true }
          else
            { status := if violations ≠ [] then .violations else .idle
              diagnostics := diags, events := []
              serviceStored := svc.isSome, invokedTool := true }

/-- Embedding of `Worker.handleConfigChange` (`src/worker.ts:222-238`):
on a successful read of a local config with a truthy `source`, the tracked
source identity becomes `resolve(cwd, source)` (modelled as path joining);
on any read/parse failure or a non-local/sourceless config it is cleared.
`readResult` is `none` when `readFileSync`/`JSON.parse` threw. -/
def handleConfigChange (readResult : Option Config) (cwd : String) : Option String :=
  match readResult with
  | some c =>
      if c.isLocal && jsTruthy c.source then
        some (cwd ++ "/" ++ c.source.getD "")
      else
        none
  | none => none

/-! Section 5: the debounce scheduler of `Worker.check`
(`src/worker.ts:121-124` and `:218`). -/

/-- Debounce state of one Worker: the pending single-shot timer (carrying the
`content` the armed callback captured) and the worker status. -/
structure DebounceState where
  timer : Option String
  status : WorkerStatus
deriving DecidableEq, Repr

/-- Timeline events for one Worker: `check content` is a call to
`Worker.check` (`src/worker.ts:121-124`: `clearTimeout` of any pending timer,
set status `running`, arm a fresh 500 ms single-shot timer); `fire` is the
500 ms debounce window elapsing for the currently armed timer.  A sequence of
`check` events with no interleaved `fire` therefore models calls less than
500 ms apart: each re-arm postpones expiry. -/
inductive DebounceEvent where
  | check (content : String)
  | fire
deriving DecidableEq, Repr

/-- Transition of `Worker.check` (`src/worker.ts:121-124`): cancel the pending
timer, set status to `running`, arm a new timer capturing `content`. -/
def stepCheck (_s : DebounceState) (content : String) : DebounceState :=
  { timer := some content, status := .running }

/-- Timer expiry: the armed callback runs with its captured content (returned
as `some content`, the content sent to the external tool); with no armed
timer nothing runs. -/
def stepFire (s : DebounceState) : DebounceState × Option String :=
  match s.timer with
  | some c => ({ s with timer := none }, some c)
  | none => (s, none)

/-- Run a timeline of debounce events; the second component lists, in order,
the contents with which the debounced callback actually ran (i.e. the
contents sent to the external tool). -/
def runDebounce : DebounceState → List DebounceEvent → DebounceState × List String
  | s, [] => (s, [])
  | s, .check c :: es => runDebounce (stepCheck s c) es
  | s, .fire :: es =>
      let (s', out) := stepFire s
      let (s'', outs) := runDebounce s' es
      (s'', out.toList ++ outs)

/-! Section 6: the older monolith variant (`src/extension.ts`): `hasBasketry`
and its single-invocation check body. -/

/-- Environment of `Worker.hasBasketry` (`src/extension.ts:334-357`): the
result of `existsSync(resolve(root, 'node_modules', '.bin', 'basketry'))`, the
result of reading and parsing the config file (`none` when either threw), and
the `existsSync` oracle for the resolved source path. -/
structure HasBasketryEnv where
  binExists : Bool
  configRead : Option Config
  sourceExists : String → Bool

/-- Embedding of the `hasBasketry` getter (`src/extension.ts:334-357`): false
when the basketry binary is missing, when the config cannot be read or
parsed, when it is not a local config, when its `source` field is absent or
falsy, or when the resolved source file does not exist. -/
def hasBasketry (env : HasBasketryEnv) : Bool :=
  if !env.binExists then
    false
  else
    match env.configRead with
    | none => false
    | some c =>
        c.isLocal && jsTruthy c.source &&
          (match c.source with
           | some s => env.sourceExists s
           | none => false)

/-- Environment of one firing of the debounced check body of the monolith
Worker (`src/extension.ts:247-308`): it performs a single `exec` of
`node_modules/.bin/basketry --config … --json --validate`. -/
structure ExtCheckEnv where
  hb : HasBasketryEnv
  validation : ExecResult
  parseCliOutput : String → Except String CliOutput

/-- Embedding of the body of the debounced timer callback of the monolith
`Worker.check` (`src/extension.ts:247-308`): identical to the current worker
except that readiness is `hasBasketry` and only the validation invocation is
performed. -/
def extRunCheck (env : ExtCheckEnv) : Fired :=
  if !hasBasketry env.hb then
    { status := .idle, diagnostics := [], events := [], serviceStored := false
      invokedTool := false }
  else
    let v := env.validation
    if v.code = none then
      fatalOutcome { name := "Error", message := "Timeout!" } true
    else if v.code ≠ some 0 then
      fatalOutcome { name := "Error", message := v.stderr } true
    else
      match env.parseCliOutput v.stdout with
      | .error m => fatalOutcome { name := "SyntaxError", message := m } true
      | .ok output =>
        let violations := output.violations
        let errors := output.errors
        let documents := distinctSourcePaths (violations.map (·.sourcePath))
        let diags := documents.map (fun d => (d, violations.map createDiagnostic))
        if errors ≠ [] then
          { status := .error, diagnostics := diags, events := errors
            serviceStored := false, invokedTool := true }
        else
          { status := if violations ≠ [] then .violations else .idle
            diagnostics := diags, events := []
            serviceStored := false, invokedTool := true }

/-! Section 7: the aggregated status-bar indicator (`src/status-bar.ts`). -/

/-- The four icons `updateStatus` can select: `$(pass)`, `$(loading~spin)`,
`$(error)`, `$(warning)`. -/
inductive StatusIcon where
  | pass
  | loading
  | error
  | warning
deriving DecidableEq, Repr

/-- Embedding of the `for (const status of Worker.statusByConfig.values())`
loop of `updateStatus` (`src/status-bar.ts:19-25`): each iteration rewrites
the icon from the current status and breaks as soon as the icon is no longer
`$(pass)`. -/
def iconLoop : StatusIcon → List WorkerStatus → StatusIcon
  | icon, [] => icon
  | icon, st :: rest =>
      let icon := if st = .running then .loading else icon
      let icon := if st = .error then .error else icon
      let icon := if st = .violations then .warning else icon
      if icon ≠ .pass then icon else iconLoop icon rest

/-- Embedding of `updateStatus` (`src/status-bar.ts:14-29`): hides the status
bar item (`none`) when no Workers are registered or the extension is stopped,
otherwise shows the icon selected by the loop over the status registry values
(in registry iteration order). -/
def updateStatus (workerCount : Nat) (stopped : Bool)
    (statuses : List WorkerStatus) : Option StatusIcon :=
  if workerCount = 0 ∨ stopped then
    none
  else
    some (iconLoop .pass statuses)

/-! Section 8: the parsed service snapshot (basketry IR types as consumed by
`src/service-explorer-data-provider.ts`). -/

/-- Validation rule attached to a member value.  The twelve constructors are
the rule shapes the provider recognizes; `other` stands for every rule whose
`id` is none of the twelve (the provider's `default` switch branch). -/
inductive Rule where
  | ArrayMaxItems (max : Literal Nat)
  | ArrayMinItems (min : Literal Nat)
  | ArrayUniqueItems (required : Bool)
  | NumberGT (value : Literal Int)
  | NumberGTE (value : Literal Int)
  | NumberLT (value : Literal Int)
  | NumberLTE (value : Literal Int)
  | NumberMultipleOf (value : Literal Int)
  | StringFormat (format : StringLiteral)
  | StringMaxLength (length : Literal Nat)
  | StringMinLength (length : Literal Nat)
  | StringPattern (pattern : StringLiteral)
  | other (id : String)
deriving DecidableEq, Repr

/-- The discriminator string `rule.id` the provider's switch reads. -/
def Rule.id : Rule → String
  | .ArrayMaxItems _ => "ArrayMaxItems"
  | .ArrayMinItems _ => "ArrayMinItems"
  | .ArrayUniqueItems _ => "ArrayUniqueItems"
  | .NumberGT _ => "NumberGT"
  | .NumberGTE _ => "NumberGTE"
  | .NumberLT _ => "NumberLT"
  | .NumberLTE _ => "NumberLTE"
  | .NumberMultipleOf _ => "NumberMultipleOf"
  | .StringFormat _ => "StringFormat"
  | .StringMaxLength _ => "StringMaxLength"
  | .StringMinLength _ => "StringMinLength"
  | .StringPattern _ => "StringPattern"
  | .other id => id

/-- The twelve rule ids the provider's switch recognizes
(`src/service-explorer-data-provider.ts:359-439`). -/
def recognizedRuleIds : List String :=
  ["ArrayMaxItems", "ArrayMinItems", "ArrayUniqueItems", "NumberGT",
   "NumberGTE", "NumberLT", "NumberLTE", "NumberMultipleOf", "StringFormat",
   "StringMaxLength", "StringMinLength", "StringPattern"]

/-- Whether a rule is one of the twelve recognized shapes (equivalently, not
the `default` branch of the switch). -/
def Rule.isRecognized : Rule → Bool
  | .other _ => false
  | _ => true

/-- A `MemberValue`: the `kind` discriminator (`'PrimitiveValue'` or
`'ComplexValue'`), the referenced type name, the array flag, and the attached
rules. -/
structure MemberValue where
  kind : String
  typeName : StringLiteral
  isArray : Bool
  rules : List Rule
deriving DecidableEq, Repr

structure Parameter where
  name : StringLiteral
  value : MemberValue
  loc : Option String := none
deriving DecidableEq, Repr

/-- The `returns` member of a method (`method.returns.value`). -/
structure MethodReturns where
  value : MemberValue
deriving DecidableEq, Repr

structure Method where
  name : StringLiteral
  parameters : List Parameter
  returns : Option MethodReturns
  loc : Option String := none
deriving DecidableEq, Repr

structure Interface where
  name : StringLiteral
  methods : List Method
deriving DecidableEq, Repr

structure Property where
  name : StringLiteral
  value : MemberValue
  loc : Option String := none
deriving DecidableEq, Repr

/-- A named type of the service (`Type` in basketry; `Type` is reserved in
Lean). -/
structure TypeDef where
  name : StringLiteral
  properties : List Property
  loc : Option String := none
deriving DecidableEq, Repr

structure EnumMember where
  content : StringLiteral
  loc : Option String := none
deriving DecidableEq, Repr

structure Enum where
  name : StringLiteral
  members : List EnumMember
  loc : Option String := none
deriving DecidableEq, Repr

/-- The service snapshot fields the tree provider reads. -/
structure Service where
  interfaces : List Interface
  types : List TypeDef
  enums : List Enum
deriving DecidableEq, Repr

/-- Modelled from the spec: the external basketry helper `getTypeByName`
(`basketry/lib/rules`, not part of this repository) — looks a type up by
name in the service snapshot. -/
def getTypeByName (s : Service) (name : String) : Option TypeDef :=
  s.types.find? (fun t => t.name.value == name)

/-- Modelled from the spec: the external basketry helper `getEnumByName`
(`basketry/lib/rules`, not part of this repository) — looks an enum up by
name in the service snapshot. -/
def getEnumByName (s : Service) (name : String) : Option Enum :=
  s.enums.find? (fun e => e.name.value == name)

/-- Modelled from the spec: the external basketry helper `isRequired`
(`basketry/lib/helpers`, not part of this repository) — whether the member
value carries a required marker among its rules.  No claim depends on its
verdict; it only feeds `*` markers in node description strings. -/
def isRequired (v : MemberValue) : Bool :=
  v.rules.any (fun r => r.id == "Required")

/-! Section 9: the Service Explorer tree provider
(`src/service-explorer-data-provider.ts`). -/

/-- The `vscode.TreeItemCollapsibleState` values used. -/
inductive CollapsibleState where
  | None
  | Collapsed
  | Expanded
deriving DecidableEq, Repr

/-- A rendered tree node.  In the source a `ServiceNode` holds label, state,
source path, optional description/icon/location, and its children live in the
side table `childrenByParent`; here the children list is a field, which is
the same association made structural. -/
inductive SNode where
  | node (label : String) (collapsibleState : CollapsibleState)
      (sourcePath : String) (description : Option String)
      (iconId : Option String) (location : Option String)
      (children : List SNode)

def SNode.label : SNode → String
  | .node l _ _ _ _ _ _ => l

def SNode.collapsibleState : SNode → CollapsibleState
  | .node _ s _ _ _ _ _ => s

def SNode.description : SNode → Option String
  | .node _ _ _ d _ _ _ => d

def SNode.children : SNode → List SNode
  | .node _ _ _ _ _ _ c => c

/-- The provider's `state` constructor option (`'defer' | 'expanded' |
'collapsed'`). -/
inductive ProviderState where
  | defer
  | expanded
  | collapsed
deriving DecidableEq, Repr

/-- The provider's `collapsed` getter
(`src/service-explorer-data-provider.ts:124-133`). -/
def collapsedState : ProviderState → CollapsibleState
  | .defer => .Collapsed
  | .expanded => .Expanded
  | .collapsed => .Collapsed

/-- The provider's `expanded` getter
(`src/service-explorer-data-provider.ts:135-144`). -/
def expandedState : ProviderState → CollapsibleState
  | .defer => .Expanded
  | .expanded => .Expanded
  | .collapsed => .Collapsed

/-- Argument type of the `by` comparator factory: the selector returns either
a basketry string scalar or a plain string
(`src/service-explorer-data-provider.ts:599-608`). -/
def StrOrLit : Type := Sum StringLiteral String

/-- The `typeof aa === 'string' ? aa : aa.value` unwrapping used by the `by`
comparator. -/
def strOf : StrOrLit → String
  | .inl l => l.value
  | .inr s => s

/-- Embedding of the `by` comparator factory
(`src/service-explorer-data-provider.ts:599-608`): compares the selected
texts (unwrapping scalars) with `localeCompare`.  (`by` is reserved in
Lean.) -/
def byCmp (fn : α → StrOrLit) (a b : α) : Int :=
  localeCompare (strOf (fn a)) (strOf (fn b))

/-- Error thrown by the JavaScript engine when recursion exhausts the call
stack.  The embedded builders carry a fuel argument standing for the
remaining stack depth; exhausting it models this error. -/
def stackOverflowError : JsError :=
  { name := "RangeError", message := "Maximum call stack size exceeded" }

/-- Error message the provider pushes when it detects the stack-overflow
message (`src/service-explorer-data-provider.ts:77-78`). -/
def cyclicMessage : String :=
  "Service contains a cyclical type references which is not yet supported by the service explorer."

/-- Sequential effectful map, modelling the provider's `for` loops that
accumulate child nodes and let a thrown error propagate. -/
def mapME (f : α → Except ε β) : List α → Except ε (List β)
  | [] => .ok []
  | x :: xs =>
      match f x with
      | .error e => .error e
      | .ok y =>
          match mapME f xs with
          | .error e => .error e
          | .ok ys => .ok (y :: ys)

/-- Embedding of `buildTypedValueDescription`
(`src/service-explorer-data-provider.ts:224-228`). -/
def buildTypedValueDescription (typedValue : MemberValue) : String :=
  typedValue.typeName.value ++ (if typedValue.isArray then "[]" else "") ++
    (if isRequired typedValue then "*" else "")

/-- Embedding of `buildRuleNodes`
(`src/service-explorer-data-provider.ts:352-459`): the switch on `rule.id`
selects label, description, and location; a node is pushed only when the
label was set (the `default` branch leaves it `null`, producing no node). -/
def buildRuleNodes (sp : String) (typedValue : MemberValue) : List SNode :=
  typedValue.rules.filterMap fun rule =>
    let fields : Option (String × Option String × Option String) :=
      match rule with
      | .ArrayMaxItems max => some ("Array max items", some (toString max.value), max.loc)
      | .ArrayMinItems min => some ("Array min items", some (toString min.value), min.loc)
      | .ArrayUniqueItems required => some ("Array unique items", some (toString required), none)
      | .NumberGT value => some ("Greater than", some (toString value.value), value.loc)
      | .NumberGTE value => some ("Greater than or equal to", some (toString value.value), value.loc)
      | .NumberLT value => some ("Less than", some (toString value.value), value.loc)
      | .NumberLTE value => some ("Less than or equal to", some (toString value.value), value.loc)
      | .NumberMultipleOf value => some ("Multiple of", some (toString value.value), value.loc)
      | .StringFormat format => some ("Format", some format.value, format.loc)
      | .StringMaxLength length => some ("Max length", some (toString length.value), length.loc)
      | .StringMinLength length => some ("Min length", some (toString length.value), length.loc)
      | .StringPattern pattern => some ("Pattern", some pattern.value, pattern.loc)
      | .other _ => none
    fields.map fun (label, description, loc) =>
      SNode.node label .None sp description (some "symbol-misc") loc []

/-- Embedding of `buildEnumNode`
(`src/service-explorer-data-provider.ts:533-560`): a hard-coded collapsed
node whose children are the members sorted by `content.value`. -/
def buildEnumNode (sp : String) (e : Enum) : SNode :=
  let memberNodes :=
    (jsSort (byCmp (fun (m : EnumMember) => Sum.inr m.content.value)) e.members).map
      fun member =>
        SNode.node member.content.value .None sp none (some "symbol-enum-member")
          member.loc []
  SNode.node e.name.value .Collapsed sp none (some "symbol-enum") e.loc memberNodes

mutual

/-- Embedding of `buildTypedValueNodes`
(`src/service-explorer-data-provider.ts:270-350`), with explicit stack-depth
fuel: a primitive value yields one leaf with the icon selected by the switch
on the type name; a complex value recurses into the referenced type (or
builds the enum, or a plain object leaf); an array value wraps the nodes in
an `Array` node. -/
def buildTypedValueNodes : Nat → ProviderState → Service → String →
    MemberValue → Except JsError (List SNode)
  | 0, _, _, _, _ => .error stackOverflowError
  | fuel + 1, st, svc, sp, typedValue => do
    let nodes ←
      if typedValue.kind = "PrimitiveValue" then
        let iconId : String :=
          match typedValue.typeName.value with
          | "boolean" => "symbol-boolean"
          | "date" => "calendar"
          | "date-time" => "calendar"
          | "double" => "symbol-numeric"
          | "float" => "symbol-numeric"
          | "integer" => "symbol-numeric"
          | "long" => "symbol-numeric"
          | "number" => "symbol-numeric"
          | "null" => "symbol-null"
          | "string" => "symbol-string"
          | _ => "symbol-misc"
        pure [SNode.node typedValue.typeName.value .None sp none (some iconId)
          typedValue.typeName.loc []]
      else
        match getTypeByName svc typedValue.typeName.value,
            getEnumByName svc typedValue.typeName.value with
        | some type, _ => do
            let n ← buildTypeNode fuel st svc sp type
            pure [n]
        | none, some e => pure [buildEnumNode sp e]
        | none, none =>
            pure [SNode.node typedValue.typeName.value .None sp none
              (some "symbol-object") typedValue.typeName.loc []]
    if typedValue.isArray then
      pure [SNode.node "Array" (expandedState st) sp none (some "symbol-array")
        none nodes]
    else
      pure nodes

/-- Embedding of `buildTypeNode`
(`src/service-explorer-data-provider.ts:469-483`). -/
def buildTypeNode : Nat → ProviderState → Service → String → TypeDef →
    Except JsError SNode
  | 0, _, _, _, _ => .error stackOverflowError
  | fuel + 1, st, svc, sp, type => do
    let props ← loadPropertyNodes fuel st svc sp type
    pure (SNode.node type.name.value (collapsedState st) sp none
      (some "symbol-object") type.loc props)

/-- Embedding of `loadPropertyNodes`
(`src/service-explorer-data-provider.ts:485-523`): one node per property in
source order (no sorting), children being the typed-value nodes plus a
`Rules` node when any rule node exists. -/
def loadPropertyNodes : Nat → ProviderState → Service → String → TypeDef →
    Except JsError (List SNode)
  | 0, _, _, _, _ => .error stackOverflowError
  | fuel + 1, st, svc, sp, type =>
    mapME (fun prop => do
      let tvNodes ← buildTypedValueNodes fuel st svc sp prop.value
      let ruleNodes := buildRuleNodes sp prop.value
      let subNodes := tvNodes ++
        (if !ruleNodes.isEmpty then
          [SNode.node "Rules" (expandedState st) sp none none none ruleNodes]
        else [])
      pure (SNode.node prop.name.value (collapsedState st) sp
        (some (buildTypedValueDescription prop.value)) (some "symbol-property")
        prop.loc subNodes)) type.properties

end

/-- Embedding of `loadParameterNodes`
(`src/service-explorer-data-provider.ts:230-268`): one node per parameter in
source order (no sorting). -/
def loadParameterNodes (fuel : Nat) (st : ProviderState) (svc : Service)
    (sp : String) (method : Method) : Except JsError (List SNode) :=
  match fuel with
  | 0 => .error stackOverflowError
  | fuel + 1 =>
    mapME (fun param => do
      let tvNodes ← buildTypedValueNodes fuel st svc sp param.value
      let ruleNodes := buildRuleNodes sp param.value
      let subNodes := tvNodes ++
        (if !ruleNodes.isEmpty then
          [SNode.node "Rules" (expandedState st) sp none none none ruleNodes]
        else [])
      pure (SNode.node param.name.value (collapsedState st) sp
        (some (buildTypedValueDescription param.value)) (some "symbol-parameter")
        param.loc subNodes)) method.parameters

/-- Embedding of `loadMethodNodes`
(`src/service-explorer-data-provider.ts:169-222`): methods sorted by name;
each method node's children are the `Parameters` node and the `Returns` node
(the latter with description `void` and no children when the method returns
nothing). -/
def loadMethodNodes (fuel : Nat) (st : ProviderState) (svc : Service)
    (sp : String) (int : Interface) : Except JsError (List SNode) :=
  match fuel with
  | 0 => .error stackOverflowError
  | fuel + 1 =>
    mapME (fun method => do
      let paramNodes ← loadParameterNodes fuel st svc sp method
      let methodParamsNode :=
        SNode.node "Parameters" (expandedState st) sp none none none paramNodes
      let methodReturnTypeNode ←
        match method.returns with
        | some r => do
            let subNodes ← buildTypedValueNodes fuel st svc sp r.value
            let ruleNodes := buildRuleNodes sp r.value
            let subNodes := subNodes ++
              (if !ruleNodes.isEmpty then
                [SNode.node "Rules" (expandedState st) sp none none none ruleNodes]
              else [])
            pure (SNode.node "Returns" (expandedState st) sp none none none subNodes)
        | none =>
            pure (SNode.node "Returns" .None sp (some "void") none none [])
      let description :=
        "(" ++ String.intercalate ", "
          (method.parameters.map fun p =>
            p.name.value ++ (if isRequired p.value then "*" else "")) ++ ")"
      pure (SNode.node method.name.value (collapsedState st) sp
        (some description) (some "symbol-method") method.loc
        [methodParamsNode, methodReturnTypeNode]))
      (jsSort (byCmp (fun (t : Method) => Sum.inl t.name)) int.methods)

/-- Embedding of `loadInterfaceNodes`
(`src/service-explorer-data-provider.ts:150-167`): interfaces sorted by name,
one collapsed node each, children being the method nodes. -/
def loadInterfaceNodes (fuel : Nat) (st : ProviderState) (svc : Service)
    (sp : String) : Except JsError (List SNode) :=
  match fuel with
  | 0 => .error stackOverflowError
  | fuel + 1 =>
    mapME (fun int => do
      let ms ← loadMethodNodes fuel st svc sp int
      pure (SNode.node int.name.value (collapsedState st) sp none
        (some "symbol-interface") none ms))
      (jsSort (byCmp (fun (x : Interface) => Sum.inl x.name)) svc.interfaces)

/-- Embedding of `loadTypeNodes`
(`src/service-explorer-data-provider.ts:461-467`): types sorted by name. -/
def loadTypeNodes (fuel : Nat) (st : ProviderState) (svc : Service)
    (sp : String) : Except JsError (List SNode) :=
  match fuel with
  | 0 => .error stackOverflowError
  | fuel + 1 =>
    mapME (buildTypeNode fuel st svc sp)
      (jsSort (byCmp (fun (t : TypeDef) => Sum.inl t.name)) svc.types)

/-- Embedding of `loadEnumNodes`
(`src/service-explorer-data-provider.ts:525-531`): enums sorted by name.
Enum construction does not recurse, so no fuel is needed. -/
def loadEnumNodes (svc : Service) (sp : String) : List SNode :=
  (jsSort (byCmp (fun (x : Enum) => Sum.inl x.name)) svc.enums).map
    (buildEnumNode sp)

/-- Result of the provider's `init`
(`src/service-explorer-data-provider.ts:54-90`): the accumulated errors, the
(possibly discarded) service, and the children loaded for the three top-level
group nodes. -/
structure InitResult where
  errors : List BasketryError
  hasService : Bool
  interfacesChildren : List SNode
  typesChildren : List SNode
  enumsChildren : List SNode

/-- Embedding of `ServiceExplorerDataProvider.init`
(`src/service-explorer-data-provider.ts:54-90`): with a service present, the
three loaders run in a `try`; on a thrown error the service is discarded and
a generic `FATAL_ERROR` with the thrown message is recorded, followed — when
that message contains `Maximum call stack size exceeded` — by the explanatory
cyclical-type-reference error. -/
def initProvider (fuel : Nat) (st : ProviderState) (sp : String)
    (service : Option Service) : InitResult :=
  match service with
  | none => ⟨[], false, [], [], []⟩
  | some svc =>
    let loaded : Except JsError (List SNode × List SNode × List SNode) := do
      let i ← loadInterfaceNodes fuel st svc sp
      let t ← loadTypeNodes fuel st svc sp
      pure (i, t, loadEnumNodes svc sp)
    match loaded with
    | .ok (i, t, e) => ⟨[], true, i, t, e⟩
    | .error ex =>
        ⟨{ code := "FATAL_ERROR", message := ex.message } ::
          (if strIncludes ex.message "Maximum call stack size exceeded" then
            [{ code := "FATAL_ERROR", message := cyclicMessage }]
          else []),
         false, [], [], []⟩

/-- Embedding of `ServiceExplorerDataProvider.getChildren`
(`src/service-explorer-data-provider.ts:100-122`), after `init` has run: with
any recorded errors, one error leaf per error; with no service, nothing; at
the root, the three group nodes; below, the children association. -/
def getChildren (st : ProviderState) (sp : String) (r : InitResult)
    (element : Option SNode) : List SNode :=
  if r.errors ≠ [] then
    r.errors.map fun err =>
      SNode.node (err.code ++ ": " ++ err.message) .None sp none (some "error")
        none []
  else if !r.hasService then
    []
  else
    match element with
    | some el => el.children
    | none =>
        [SNode.node "Interfaces" (expandedState st) sp none none none
           r.interfacesChildren,
         SNode.node "Types" (expandedState st) sp none none none
           r.typesChildren,
         SNode.node "Enums" (expandedState st) sp none none none
           r.enumsChildren]

/-! Section 10: claim theorems. -/

/-- Stated from the spec's words, for comparison with the code's comparator:
a case-sensitive ordinal three-way comparison of the underlying text
(code-unit order, no locale). -/
def ordinalCompare (a b : String) : Ordering :=
  listCompare (a.data.map Char.toNat) (b.data.map Char.toNat)

/-- Claim C9: the diagnostic built from a violation converts the 1-based
range to 0-based by subtracting exactly one from each of the four
coordinates, copies the message and code unchanged, and maps severity
`error`/`warning`/`info` to `Error`/`Warning`/`Information`. -/
theorem C9_createDiagnostic_shape (v : Violation) :
    (createDiagnostic v).range =
      { startLine := v.range.start.line - 1
        startColumn := v.range.start.column - 1
        endLine := v.range.stop.line - 1
        endColumn := v.range.stop.column - 1 } ∧
    (createDiagnostic v).message = v.message ∧
    (createDiagnostic v).code = v.code ∧
    ((v.severity = .error → (createDiagnostic v).severity = .Error) ∧
     (v.severity = .warning → (createDiagnostic v).severity = .Warning) ∧
     (v.severity = .info → (createDiagnostic v).severity = .Information)) := by
  refine ⟨rfl, rfl, rfl, ?_, ?_, ?_⟩ <;>
    · intro h
      simp [createDiagnostic, h]

/-- Claim C9 witness: evaluation at a concrete violation. -/
theorem C9_createDiagnostic_shape_witness :
    (createDiagnostic
        { severity := .warning, message := "msg", code := "basketry/rule"
          sourcePath := "file:///s.ts"
          range := { start := { line := 3, column := 7 }
                     stop := { line := 3, column := 12 } } }).severity =
      .Warning ∧
    (createDiagnostic
        { severity := .warning, message := "msg", code := "basketry/rule"
          sourcePath := "file:///s.ts"
          range := { start := { line := 3, column := 7 }
                     stop := { line := 3, column := 12 } } }).range =
      { startLine := 2, startColumn := 6, endLine := 2, endColumn := 11 } := by
  constructor
  · exact (C9_createDiagnostic_shape _).2.2.2.2.1 rfl
  · exact (C9_createDiagnostic_shape _).1

/-- Helper for C10: over any rule list, `buildRuleNodes` yields one node per
recognized rule. -/
theorem buildRuleNodes_count (sp : String) (tv : MemberValue) :
    ∀ rs : List Rule,
      (buildRuleNodes sp { tv with rules := rs }).length =
        rs.countP Rule.isRecognized := by
  intro rs
  induction rs with
  | nil => rfl
  | cons r rs ih =>
      cases r <;>
        simp [buildRuleNodes, List.filterMap_cons, List.countP_cons,
          Rule.isRecognized] at ih ⊢ <;>
        omega

/-- Claim C10: `buildRuleNodes` produces exactly one node per rule whose id
is one of the twelve recognized kinds, and no node at all for a rule with
any other id.  (The `Rule.other` constructor stands for exactly the rules
with unrecognized ids, which the well-formedness hypothesis records.) -/
theorem C10_buildRuleNodes_recognized (sp : String) (tv : MemberValue)
    (hwf : ∀ id, Rule.other id ∈ tv.rules → id ∉ recognizedRuleIds) :
    (buildRuleNodes sp tv).length = tv.rules.countP Rule.isRecognized ∧
    (∀ r ∈ tv.rules, (r.isRecognized = true ↔ r.id ∈ recognizedRuleIds)) ∧
    (∀ r : Rule, r.isRecognized = false →
      buildRuleNodes sp { tv with rules := [r] } = []) := by
  refine ⟨?_, ?_, ?_⟩
  · have h := buildRuleNodes_count sp tv tv.rules
    simpa using h
  · intro r hr
    cases r <;> simp_all [Rule.isRecognized, Rule.id, recognizedRuleIds]
  · intro r hr
    cases r <;> simp_all [Rule.isRecognized, buildRuleNodes]

/-- Claim C10 witness: a value with one recognized and one unrecognized rule
yields exactly one rule node. -/
theorem C10_buildRuleNodes_recognized_witness :
    (buildRuleNodes "src"
        { kind := "PrimitiveValue", typeName := { value := "string" }
          isArray := false
          rules := [Rule.StringMaxLength { value := 10 },
                    Rule.other "SomeFutureRule"] }).length = 1 ∧
    buildRuleNodes "src"
        { kind := "PrimitiveValue", typeName := { value := "string" }
          isArray := false, rules := [Rule.other "SomeFutureRule"] } = [] := by
  have h := C10_buildRuleNodes_recognized "src"
    { kind := "PrimitiveValue", typeName := { value := "string" }
      isArray := false
      rules := [Rule.StringMaxLength { value := 10 },
                Rule.other "SomeFutureRule"] }
    (by
      intro id hid
      simp only [List.mem_cons, List.not_mem_nil, or_false] at hid
      rcases hid with h | h
      · exact Rule.noConfusion h
      · injection h with h
        subst h
        decide)
  refine ⟨?_, ?_⟩
  · rw [h.1]; rfl
  · exact h.2.2 (Rule.other "SomeFutureRule") rfl

/-- Helper for C1: the burst property on a non-empty cons-shaped list. -/
theorem runDebounce_burst (s : DebounceState) (c : String) (cs : List String) :
    (runDebounce s ((c :: cs).map DebounceEvent.check ++ [DebounceEvent.fire])).2 =
      [(c :: cs).getLast (by simp)] ∧
    (runDebounce s ((c :: cs).map DebounceEvent.check)).2 = [] := by
  induction cs generalizing s c with
  | nil => simp [runDebounce, stepCheck, stepFire]
  | cons c' cs' ih =>
      have h := ih (stepCheck s c) c'
      simpa [runDebounce, List.getLast_cons] using h

/-- Claim C1: for a burst of `check` calls with no timer expiry in between
(calls less than the 500 ms debounce window apart), the armed callback runs
with exactly the last call's content once the window finally elapses, and no
superseded pending invocation ever runs: nothing is executed during the
burst itself. -/
theorem C1_debounce_last_only (s : DebounceState) (cs : List String)
    (hne : cs ≠ []) :
    (runDebounce s (cs.map DebounceEvent.check ++ [DebounceEvent.fire])).2 =
      [cs.getLast hne] ∧
    (runDebounce s (cs.map DebounceEvent.check)).2 = [] := by
  cases cs with
  | nil => exact absurd rfl hne
  | cons c cs => exact runDebounce_burst s c cs

/-- Claim C1 witness: three rapid `check` calls, one expiry: only the last
content runs. -/
theorem C1_debounce_last_only_witness :
    (runDebounce { timer := none, status := .idle }
      [DebounceEvent.check "a", DebounceEvent.check "b", DebounceEvent.check "c",
       DebounceEvent.fire]).2 = ["c"] := by
  have h := C1_debounce_last_only { timer := none, status := .idle }
    ["a", "b", "c"] (by simp)
  simpa using h.1

/-- Claim C2: when both external invocations exit 0 and both outputs parse,
the final status is determined by the parsed output: `idle` when violations
and errors are both empty, `violations` when violations are present and
errors empty, and `error` whenever errors are present regardless of the
violation count. -/
theorem C2_status_from_output (env : CheckEnv) (output : CliOutput)
    (svc : Option Unit)
    (hinst : env.isBasketryInstalled = true)
    (hv : env.validation.code = some 0)
    (hs : env.serviceResult.code = some 0)
    (hp : env.parseCliOutput env.validation.stdout = .ok output)
    (hps : env.parseService env.serviceResult.stdout = .ok svc) :
    (output.violations = [] → output.errors = [] →
      (runCheck env).status = .idle) ∧
    (output.violations ≠ [] → output.errors = [] →
      (runCheck env).status = .violations) ∧
    (output.errors ≠ [] → (runCheck env).status = .error) := by
  refine ⟨?_, ?_, ?_⟩
  · intro hvi herr
    simp [runCheck, hinst, hv, hs, hp, hps, hvi, herr]
  · intro hvi herr
    simp [runCheck, hinst, hv, hs, hp, hps, hvi, herr]
  · intro herr
    simp [runCheck, hinst, hv, hs, hp, hps, herr]

/-- Concrete violation used by witnesses. -/
def exampleViolation : Violation :=
  { severity := .warning, message := "some message", code := "basketry/rule"
    sourcePath := "file:///a.ts"
    range := { start := { line := 2, column := 4 }, stop := { line := 2, column := 9 } } }

/-- Concrete environment for the C2 witness: both invocations succeed, one
violation, no errors. -/
def c2env : CheckEnv :=
  { configRead := some { isLocal := true, source := some "api.ext" }
    isBasketryInstalled := true
    validation := { stdout := "out", stderr := "", code := some 0, ms := 10 }
    serviceResult := { stdout := "svc", stderr := "", code := some 0, ms := 12 }
    parseCliOutput := fun _ => .ok { violations := [exampleViolation], errors := [] }
    parseService := fun _ => .ok (some ()) }

/-- Claim C2 witness: a successful run with one violation and no errors ends
in status `violations`. -/
theorem C2_status_from_output_witness : (runCheck c2env).status = .violations := by
  have h := C2_status_from_output c2env
    { violations := [exampleViolation], errors := [] } (some ()) rfl rfl rfl rfl rfl
  exact h.2.1 (by simp) rfl

/-- Claim C4: when the external tool is considered installed but either
invocation times out (null exit code) or exits non-zero, or either output
fails to parse, the worker ends with status `error`, an empty diagnostics
collection, and exactly one `FATAL_ERROR` event carrying the failure message
(the timeout message, the captured stderr, or the parse error's message,
each filtered through `err.message || err.toString()`). -/
theorem C4_fatal_error (env : CheckEnv)
    (hinst : env.isBasketryInstalled = true)
    (hfail : env.validation.code = none ∨ env.serviceResult.code = none ∨
      env.validation.code ≠ some 0 ∨ env.serviceResult.code ≠ some 0 ∨
      (∃ m, env.parseCliOutput env.validation.stdout = .error m) ∨
      (∃ m, env.parseService env.serviceResult.stdout = .error m)) :
    (runCheck env).status = .error ∧
    (runCheck env).diagnostics = [] ∧
    (∃ m, (runCheck env).events = [{ code := "FATAL_ERROR", message := m }] ∧
      (m = jsErrorCarried { name := "Error", message := "Timeout!" } ∨
       m = jsErrorCarried { name := "Error", message := env.validation.stderr } ∨
       (∃ pm, env.parseCliOutput env.validation.stdout = .error pm ∧
         m = jsErrorCarried { name := "SyntaxError", message := pm }) ∨
       (∃ pm, env.parseService env.serviceResult.stdout = .error pm ∧
         m = jsErrorCarried { name := "SyntaxError", message := pm }))) := by
  by_cases h1 : env.validation.code = none ∨ env.serviceResult.code = none
  · have hr : runCheck env =
        fatalOutcome { name := "Error", message := "Timeout!" } true := by
      simp [runCheck, hinst, h1]
    rw [hr]
    exact ⟨rfl, rfl, _, rfl, Or.inl rfl⟩
  · by_cases h2 : env.validation.code ≠ some 0 ∨ env.serviceResult.code ≠ some 0
    · have hr : runCheck env =
          fatalOutcome { name := "Error", message := env.validation.stderr } true := by
        simp only [runCheck, hinst]
        simp [h1, h2]
      rw [hr]
      exact ⟨rfl, rfl, _, rfl, Or.inr (Or.inl rfl)⟩
    · push_neg at h2
      obtain ⟨hv0, hs0⟩ := h2
      cases hp : env.parseCliOutput env.validation.stdout with
      | error m =>
          have hr : runCheck env =
              fatalOutcome { name := "SyntaxError", message := m } true := by
            simp [runCheck, hinst, hv0, hs0, hp]
          rw [hr]
          exact ⟨rfl, rfl, _, rfl, Or.inr (Or.inr (Or.inl ⟨m, rfl, rfl⟩))⟩
      | ok output =>
          cases hps : env.parseService env.serviceResult.stdout with
          | error m =>
              have hr : runCheck env =
                  fatalOutcome { name := "SyntaxError", message := m } true := by
                simp [runCheck, hinst, hv0, hs0, hp, hps]
              rw [hr]
              exact ⟨rfl, rfl, _, rfl, Or.inr (Or.inr (Or.inr ⟨m, rfl, rfl⟩))⟩
          | ok svc =>
              exfalso
              rcases hfail with h | h | h | h | ⟨m, hm⟩ | ⟨m, hm⟩
              · simp [hv0] at h
              · simp [hs0] at h
              · exact h hv0
              · exact h hs0
              · simp [hp] at hm
              · simp [hps] at hm

/-- Concrete environment for the C4 witness: the validation invocation times
out (null exit code). -/
def c4env : CheckEnv :=
  { configRead := some { isLocal := true, source := some "api.ext" }
    isBasketryInstalled := true
    validation := { stdout := "", stderr := "", code := none, ms := 5000 }
    serviceResult := { stdout := "", stderr := "", code := none, ms := 5000 }
    parseCliOutput := fun _ => .error "Unexpected end of JSON input"
    parseService := fun _ => .error "Unexpected end of JSON input" }

/-- Claim C4 witness: on a timeout the status is `error` and the diagnostics
are cleared. -/
theorem C4_fatal_error_witness :
    (runCheck c4env).status = .error ∧ (runCheck c4env).diagnostics = [] := by
  have h := C4_fatal_error c4env rfl (Or.inl rfl)
  exact ⟨h.1, h.2.1⟩

/-- First violation of the C3 failing input (reported against document a). -/
def c3v1 : Violation :=
  { severity := .error, message := "broken a", code := "basketry/parser-error"
    sourcePath := "file:///a.ts"
    range := { start := { line := 1, column := 1 }, stop := { line := 1, column := 2 } } }

/-- Second violation of the C3 failing input (reported against document b). -/
def c3v2 : Violation :=
  { severity := .warning, message := "broken b", code := "basketry/rule"
    sourcePath := "file:///b.ts"
    range := { start := { line := 9, column := 3 }, stop := { line := 9, column := 7 } } }

/-- The C3 failing input: a successful check whose two violations name two
distinct source documents. -/
def c3env : CheckEnv :=
  { configRead := some { isLocal := true, source := some "api.ext" }
    isBasketryInstalled := true
    validation := { stdout := "out", stderr := "", code := some 0, ms := 10 }
    serviceResult := { stdout := "svc", stderr := "", code := some 0, ms := 12 }
    parseCliOutput := fun _ => .ok { violations := [c3v1, c3v2], errors := [] }
    parseService := fun _ => .ok (some ()) }

/-- Claim C3, evaluated at the failing input: after a successful check with
violations against two distinct documents, the code assigns the diagnostics
of ALL violations to EACH distinct source document — document a also
receives the diagnostic derived from the violation whose `sourcePath` is
document b — instead of grouping by matching `sourcePath` as the claim
states.  (After a failed check the collection is empty — that part holds and
is covered by `C4_fatal_error`.) -/
theorem C3_diagnostics_not_grouped :
    (runCheck c3env).status = .violations ∧
    (runCheck c3env).diagnostics =
      [("file:///a.ts", [createDiagnostic c3v1, createDiagnostic c3v2]),
       ("file:///b.ts", [createDiagnostic c3v1, createDiagnostic c3v2])] ∧
    c3v2.sourcePath ≠ "file:///a.ts" ∧
    (∃ d ∈ (runCheck c3env).diagnostics,
      d.1 = "file:///a.ts" ∧ createDiagnostic c3v2 ∈ d.2) := by
  refine ⟨rfl, rfl, by decide, ?_⟩
  exact ⟨("file:///a.ts", [createDiagnostic c3v1, createDiagnostic c3v2]),
    by rw [show (runCheck c3env).diagnostics =
      [("file:///a.ts", [createDiagnostic c3v1, createDiagnostic c3v2]),
       ("file:///b.ts", [createDiagnostic c3v1, createDiagnostic c3v2])] from rfl]
       simp, rfl, by simp⟩

/-- Concrete environment for the C5 counterexample: a local configuration
with no `source` field, while the version probe reports the basketry CLI as
installed, and both invocations succeed trivially. -/
def c5env : CheckEnv :=
  { configRead := some { isLocal := true, source := none }
    isBasketryInstalled := true
    validation := { stdout := "out", stderr := "", code := some 0, ms := 10 }
    serviceResult := { stdout := "svc", stderr := "", code := some 0, ms := 10 }
    parseCliOutput := fun _ => .ok { violations := [], errors := [] }
    parseService := fun _ => .ok none }

/-- Claim C5 counterexample: in the current Worker (`src/worker.ts`), a
configuration with no `source` field does NOT make the readiness check
report false — `isBasketryInstalled` is only the `npx basketry --version`
probe, which never reads the configuration — and the debounced check then
DOES invoke the external validation tool.  (`handleConfigChange` correctly
clears the tracked source identity, but the check path does not consult
it.) -/
theorem C5_counterexample :
    c5env.configRead = some { isLocal := true, source := none } ∧
    handleConfigChange c5env.configRead "/w" = none ∧
    c5env.isBasketryInstalled = true ∧
    (runCheck c5env).invokedTool = true :=
  ⟨rfl, rfl, rfl, rfl⟩

/-- Claim C5 as amended: in the current Worker the readiness check is only
whether the basketry CLI answers the version probe, and when it reports
false the debounced path clears diagnostics and goes `idle` without invoking
the tool; it is the earlier monolith's `hasBasketry` that additionally
reports false when the configuration has no `source` field or the configured
source file does not exist, and that monolith's debounced path then clears
diagnostics and goes `idle` without invoking the tool. -/
theorem C5_readiness_amended :
    (∀ env : CheckEnv, env.isBasketryInstalled = false →
      (runCheck env).status = .idle ∧ (runCheck env).diagnostics = [] ∧
      (runCheck env).invokedTool = false) ∧
    (∀ henv : HasBasketryEnv, ∀ c : Config, henv.configRead = some c →
      (c.source = none ∨ (∃ s, c.source = some s ∧ henv.sourceExists s = false)) →
      hasBasketry henv = false) ∧
    (∀ eenv : ExtCheckEnv, hasBasketry eenv.hb = false →
      (extRunCheck eenv).status = .idle ∧ (extRunCheck eenv).diagnostics = [] ∧
      (extRunCheck eenv).invokedTool = false) := by
  refine ⟨?_, ?_, ?_⟩
  · intro env h
    refine ⟨?_, ?_, ?_⟩ <;> simp [runCheck, h]
  · intro henv c hc hsrc
    by_cases hb : henv.binExists
    · rcases hsrc with h | ⟨s, hs, hex⟩
      · simp [hasBasketry, hb, hc, h, jsTruthy]
      · simp [hasBasketry, hb, hc, hs, hex, jsTruthy]
    · simp [hasBasketry, hb]
  · intro eenv h
    refine ⟨?_, ?_, ?_⟩ <;> simp [extRunCheck, h]

/-- Environment for the C5 amended witness: readiness probe fails. -/
def c5idleEnv : CheckEnv := { c5env with isBasketryInstalled := false }

/-- Readiness environment for the C5 amended witness: binary present, local
config with no `source` field. -/
def c5hb : HasBasketryEnv :=
  { binExists := true
    configRead := some { isLocal := true, source := none }
    sourceExists := fun _ => false }

/-- Monolith check environment for the C5 amended witness. -/
def c5ext : ExtCheckEnv :=
  { hb := c5hb
    validation := { stdout := "out", stderr := "", code := some 0, ms := 1 }
    parseCliOutput := fun _ => .ok { violations := [], errors := [] } }

/-- Claim C5 amended witness: concrete instances of all three parts. -/
theorem C5_readiness_amended_witness :
    (runCheck c5idleEnv).status = .idle ∧
    hasBasketry c5hb = false ∧
    (extRunCheck c5ext).invokedTool = false := by
  have h := C5_readiness_amended
  exact ⟨(h.1 c5idleEnv rfl).1,
    h.2.1 c5hb { isLocal := true, source := none } rfl (Or.inl rfl),
    (h.2.2 c5ext rfl).2.2⟩

/-- Characterization of the status-bar loop, stated from its observable
behavior: the icon of the first non-idle status in registry iteration order
(`pass` when every status is idle). -/
def firstNonIdleIcon : List WorkerStatus → StatusIcon
  | [] => .pass
  | .idle :: rest => firstNonIdleIcon rest
  | .running :: _ => .loading
  | .error :: _ => .error
  | .violations :: _ => .warning

/-- Helper for C6: the embedded loop computes the first-non-idle icon. -/
theorem iconLoop_eq_firstNonIdle (sts : List WorkerStatus) :
    iconLoop .pass sts = firstNonIdleIcon sts := by
  induction sts with
  | nil => rfl
  | cons st rest ih => cases st <;> simp [iconLoop, firstNonIdleIcon, ih]

/-- Claim C6 counterexample: with the status registry iterating
`[violations, running]`, the indicator shows the warning icon even though a
Worker is `running` — the loop honors the FIRST non-idle status in iteration
order, not the claimed precedence `running > error > violations`. -/
theorem C6_counterexample :
    updateStatus 2 false [.violations, .running] = some .warning ∧
    StatusIcon.warning ≠ StatusIcon.loading :=
  ⟨rfl, by decide⟩

/-- Claim C6 as amended: the indicator is hidden exactly when no Workers are
registered or the extension is stopped; otherwise it shows the icon of the
first non-idle status in registry iteration order (`running` → loading,
`error` → error, `violations` → warning), and the pass icon exactly when
every registered status is idle. -/
theorem C6_status_bar_amended (n : Nat) (stopped : Bool)
    (sts : List WorkerStatus) :
    (updateStatus n stopped sts = none ↔ (n = 0 ∨ stopped = true)) ∧
    (n ≠ 0 → stopped = false →
      updateStatus n stopped sts = some (firstNonIdleIcon sts)) ∧
    (firstNonIdleIcon sts = .pass ↔ ∀ st ∈ sts, st = .idle) := by
  refine ⟨?_, ?_, ?_⟩
  · by_cases h : n = 0 ∨ stopped = true
    · simp [updateStatus, h]
    · simp [updateStatus, h]
  · intro hn hs
    simp [updateStatus, hn, hs, iconLoop_eq_firstNonIdle]
  · induction sts with
    | nil => simp [firstNonIdleIcon]
    | cons st rest ih => cases st <;> simp [firstNonIdleIcon, ih]

/-- Claim C6 amended witness: with statuses `[idle, error, running]` the
first non-idle status (`error`) selects the icon. -/
theorem C6_status_bar_amended_witness :
    updateStatus 1 false [.idle, .error, .running] = some .error := by
  have h := (C6_status_bar_amended 1 false [.idle, .error, .running]).2.1
    (by decide) rfl
  exact h.trans rfl

/-- Helper: transitivity of the non-strict order induced by `listCompare`. -/
theorem listCompare_not_gt_trans :
    ∀ a b c : List Nat, listCompare a b ≠ .gt → listCompare b c ≠ .gt →
      listCompare a c ≠ .gt := by
  intro a
  induction a with
  | nil =>
      intro b c h1 h2
      cases c <;> simp [listCompare]
  | cons x as ih =>
      intro b c h1 h2
      cases b with
      | nil => simp [listCompare] at h1
      | cons y bs =>
          cases c with
          | nil => simp [listCompare] at h2
          | cons z cs =>
              simp only [listCompare] at h1 h2 ⊢
              cases hxy : compare x y <;> rw [hxy] at h1 <;>
                cases hyz : compare y z <;> rw [hyz] at h2
              · have hx : x < y := Nat.compare_eq_lt.mp hxy
                have hy : y < z := Nat.compare_eq_lt.mp hyz
                rw [Nat.compare_eq_lt.mpr (by omega)]
                simp
              · have hx : x < y := Nat.compare_eq_lt.mp hxy
                have hy : y = z := Nat.compare_eq_eq.mp hyz
                rw [Nat.compare_eq_lt.mpr (by omega)]
                simp
              · exact absurd rfl h2
              · have hx : x = y := Nat.compare_eq_eq.mp hxy
                have hy : y < z := Nat.compare_eq_lt.mp hyz
                rw [Nat.compare_eq_lt.mpr (by omega)]
                simp
              · have hx : x = y := Nat.compare_eq_eq.mp hxy
                have hy : y = z := Nat.compare_eq_eq.mp hyz
                rw [Nat.compare_eq_eq.mpr (by omega)]
                exact ih bs cs h1 h2
              · exact absurd rfl h2
              · exact absurd rfl h1
              · exact absurd rfl h1
              · exact absurd rfl h1

/-- Helper: totality of the non-strict order induced by `listCompare`. -/
theorem listCompare_not_gt_total :
    ∀ a b : List Nat, listCompare a b ≠ .gt ∨ listCompare b a ≠ .gt := by
  intro a
  induction a with
  | nil =>
      intro b
      left
      cases b <;> simp [listCompare]
  | cons x as ih =>
      intro b
      cases b with
      | nil =>
          right
          simp [listCompare]
      | cons y bs =>
          cases hxy : compare x y with
          | lt =>
              left
              simp [listCompare, hxy]
          | eq =>
              have hx : x = y := Nat.compare_eq_eq.mp hxy
              have hyx : compare y x = .eq := Nat.compare_eq_eq.mpr (by omega)
              rcases ih bs with h | h
              · left
                simp only [listCompare, hxy]
                exact h
              · right
                simp only [listCompare, hyx]
                exact h
          | gt =>
              right
              have hx : y < x := Nat.compare_eq_gt.mp hxy
              simp [listCompare, Nat.compare_eq_lt.mpr hx]

/-- Helper: `localeCompare s t ≤ 0` is the non-strict collation order. -/
theorem localeCompare_le_zero_iff (s t : String) :
    localeCompare s t ≤ 0 ↔
      listCompare (collationKey s) (collationKey t) ≠ .gt := by
  unfold localeCompare
  cases h : listCompare (collationKey s) (collationKey t) <;> simp [h]

/-- Helper: the comparator-induced order used by the provider's sorts is
transitive. -/
theorem byCmp_le_trans (fn : α → StrOrLit) (a b c : α)
    (hab : byCmp fn a b ≤ 0) (hbc : byCmp fn b c ≤ 0) : byCmp fn a c ≤ 0 := by
  rw [byCmp, localeCompare_le_zero_iff] at hab hbc ⊢
  exact listCompare_not_gt_trans _ _ _ hab hbc

/-- Helper: the comparator-induced order used by the provider's sorts is
total. -/
theorem byCmp_le_total (fn : α → StrOrLit) (a b : α) :
    byCmp fn a b ≤ 0 ∨ byCmp fn b a ≤ 0 := by
  rw [byCmp, byCmp, localeCompare_le_zero_iff, localeCompare_le_zero_iff]
  exact listCompare_not_gt_total _ _

/-- Helper: `jsSort` with a `by`-style comparator sorts its input. -/
theorem jsSort_byCmp_sorted (fn : α → StrOrLit) (xs : List α) :
    List.Sorted (fun a b => byCmp fn a b ≤ 0) (jsSort (byCmp fn) xs) := by
  haveI : IsTotal α (fun a b => byCmp fn a b ≤ 0) := ⟨byCmp_le_total fn⟩
  haveI : IsTrans α (fun a b => byCmp fn a b ≤ 0) := ⟨byCmp_le_trans fn⟩
  exact List.sorted_insertionSort _ _

/-- Helper: `jsSort` permutes its input. -/
theorem jsSort_perm (cmp : α → α → Int) (xs : List α) :
    (jsSort cmp xs).Perm xs :=
  List.perm_insertionSort _ _

/-- Helper: an element-wise view of a successful `mapME`. -/
theorem mapME_ok_map {ε α β γ : Type} {f : α → Except ε β} {g : α → γ}
    {h : β → γ} (hfg : ∀ a b, f a = .ok b → h b = g a) :
    ∀ {xs : List α} {ys : List β}, mapME f xs = .ok ys →
      ys.map h = xs.map g := by
  intro xs
  induction xs with
  | nil =>
      intro ys hy
      simp only [mapME] at hy
      cases hy
      rfl
  | cons x xs ih =>
      intro ys hy
      simp only [mapME] at hy
      cases hfx : f x with
      | error e => rw [hfx] at hy; exact absurd hy (by simp)
      | ok y =>
          rw [hfx] at hy
          cases hrest : mapME f xs with
          | error e =>
              rw [hrest] at hy
              exact absurd hy (by simp)
          | ok ys' =>
              rw [hrest] at hy
              simp only [Except.ok.injEq] at hy
              subst hy
              simp only [List.map_cons]
              rw [hfg x y hfx, ih hrest]

/-- Reduction of the `Except` bind on a success value. -/
theorem exbind_ok (a : α) (f : α → Except ε β) : (Except.ok a >>= f) = f a := rfl

/-- Reduction of the `Except` bind on an error value. -/
theorem exbind_err (e : ε) (f : α → Except ε β) :
    ((Except.error e : Except ε α) >>= f) = .error e := rfl

/-- Reduction of `pure` for `Except`. -/
theorem expure_eq (a : α) : (pure a : Except ε α) = .ok a := rfl

/-- Helper for C7: the labels of successfully loaded interface nodes are the
interface names in comparator-sorted order. -/
theorem loadInterfaceNodes_labels (fuel : Nat) (st : ProviderState)
    (svc : Service) (sp : String) (ns : List SNode)
    (h : loadInterfaceNodes fuel st svc sp = .ok ns) :
    ns.map SNode.label =
      (jsSort (byCmp (fun (x : Interface) => Sum.inl x.name))
        svc.interfaces).map (fun i => i.name.value) := by
  cases fuel with
  | zero => simp [loadInterfaceNodes] at h
  | succ fuel =>
      simp only [loadInterfaceNodes] at h
      refine mapME_ok_map ?_ h
      intro a b hab
      cases hm : loadMethodNodes fuel st svc sp a with
      | error e => rw [hm, exbind_err] at hab; exact absurd hab (by simp)
      | ok ms =>
          rw [hm, exbind_ok, expure_eq] at hab
          cases hab
          rfl

/-- Helper for C7: the labels of successfully loaded property nodes are the
property names in source order (no sorting). -/
theorem loadPropertyNodes_labels (fuel : Nat) (st : ProviderState)
    (svc : Service) (sp : String) (t : TypeDef) (ps : List SNode)
    (h : loadPropertyNodes fuel st svc sp t = .ok ps) :
    ps.map SNode.label = t.properties.map (fun p => p.name.value) := by
  cases fuel with
  | zero => simp [loadPropertyNodes] at h
  | succ fuel =>
      simp only [loadPropertyNodes] at h
      refine mapME_ok_map ?_ h
      intro a b hab
      cases hm : buildTypedValueNodes fuel st svc sp a.value with
      | error e => rw [hm, exbind_err] at hab; exact absurd hab (by simp)
      | ok tvNodes =>
          rw [hm, exbind_ok, expure_eq] at hab
          cases hab
          rfl

/-- Helper for C7: a successfully built type node carries its property nodes
as children. -/
theorem buildTypeNode_children (fuel : Nat) (st : ProviderState)
    (svc : Service) (sp : String) (t : TypeDef) (n : SNode)
    (h : buildTypeNode fuel st svc sp t = .ok n) :
    ∃ ps, loadPropertyNodes (fuel - 1) st svc sp t = .ok ps ∧
      n.children = ps := by
  cases fuel with
  | zero => simp [buildTypeNode] at h
  | succ fuel =>
      simp only [buildTypeNode] at h
      cases hp : loadPropertyNodes fuel st svc sp t with
      | error e => rw [hp, exbind_err] at h; exact absurd h (by simp)
      | ok ps =>
          rw [hp, exbind_ok, expure_eq] at h
          cases h
          exact ⟨ps, hp, rfl⟩

/-- Helper for C7: enum member nodes are sorted by the comparator. -/
theorem buildEnumNode_members (sp : String) (e : Enum) :
    (buildEnumNode sp e).children.map SNode.label =
      (jsSort (byCmp (fun (m : EnumMember) => Sum.inr m.content.value))
        e.members).map (fun m => m.content.value) := by
  simp only [buildEnumNode, SNode.children, List.map_map]
  rfl

/-- Helper for C7: the labels of successfully loaded method nodes are the
method names in comparator-sorted order. -/
theorem loadMethodNodes_labels (fuel : Nat) (st : ProviderState)
    (svc : Service) (sp : String) (int : Interface) (ns : List SNode)
    (h : loadMethodNodes fuel st svc sp int = .ok ns) :
    ns.map SNode.label =
      (jsSort (byCmp (fun (t : Method) => Sum.inl t.name))
        int.methods).map (fun m => m.name.value) := by
  cases fuel with
  | zero => simp [loadMethodNodes] at h
  | succ fuel =>
      simp only [loadMethodNodes] at h
      refine mapME_ok_map ?_ h
      intro a b hab
      cases hp : loadParameterNodes fuel st svc sp a with
      | error e => rw [hp, exbind_err] at hab; exact absurd hab (by simp)
      | ok ps =>
          rw [hp, exbind_ok] at hab
          split at hab
          · rename_i r heq
            cases hb : buildTypedValueNodes fuel st svc sp r.value with
            | error e =>
                rw [hb, exbind_err] at hab
                exact absurd hab (by simp)
            | ok tv =>
                rw [hb, exbind_ok] at hab
                simp only [expure_eq, exbind_ok] at hab
                cases hab
                rfl
          · simp only [expure_eq, exbind_ok] at hab
            cases hab
            rfl

/-- Helper for C7: a successfully built type node is labeled with the type
name. -/
theorem buildTypeNode_label (fuel : Nat) (st : ProviderState) (svc : Service)
    (sp : String) (t : TypeDef) (n : SNode)
    (h : buildTypeNode fuel st svc sp t = .ok n) : n.label = t.name.value := by
  cases fuel with
  | zero => simp [buildTypeNode] at h
  | succ fuel =>
      simp only [buildTypeNode] at h
      cases hp : loadPropertyNodes fuel st svc sp t with
      | error e => rw [hp, exbind_err] at h; exact absurd h (by simp)
      | ok ps =>
          rw [hp, exbind_ok, expure_eq] at h
          cases h
          rfl

/-- Helper for C7: the labels of successfully loaded type nodes are the type
names in comparator-sorted order. -/
theorem loadTypeNodes_labels (fuel : Nat) (st : ProviderState)
    (svc : Service) (sp : String) (ns : List SNode)
    (h : loadTypeNodes fuel st svc sp = .ok ns) :
    ns.map SNode.label =
      (jsSort (byCmp (fun (t : TypeDef) => Sum.inl t.name))
        svc.types).map (fun t => t.name.value) := by
  cases fuel with
  | zero => simp [loadTypeNodes] at h
  | succ fuel =>
      simp only [loadTypeNodes] at h
      exact mapME_ok_map (fun a b hab => buildTypeNode_label fuel st svc sp a b hab) h

/-- Helper for C7: the labels of the loaded enum nodes are the enum names in
comparator-sorted order. -/
theorem loadEnumNodes_labels (svc : Service) (sp : String) :
    (loadEnumNodes svc sp).map SNode.label =
      (jsSort (byCmp (fun (x : Enum) => Sum.inl x.name))
        svc.enums).map (fun e => e.name.value) := by
  simp only [loadEnumNodes, List.map_map]
  rfl

/-- Helper for C7: the labels of successfully loaded parameter nodes are the
parameter names in source order (no sorting). -/
theorem loadParameterNodes_labels (fuel : Nat) (st : ProviderState)
    (svc : Service) (sp : String) (m : Method) (ps : List SNode)
    (h : loadParameterNodes fuel st svc sp m = .ok ps) :
    ps.map SNode.label = m.parameters.map (fun p => p.name.value) := by
  cases fuel with
  | zero => simp [loadParameterNodes] at h
  | succ fuel =>
      simp only [loadParameterNodes] at h
      refine mapME_ok_map ?_ h
      intro a b hab
      cases hm : buildTypedValueNodes fuel st svc sp a.value with
      | error e => rw [hm, exbind_err] at hab; exact absurd hab (by simp)
      | ok tvNodes =>
          rw [hm, exbind_ok, expure_eq] at hab
          cases hab
          rfl

/-- A three-interface service used by the C7 example. -/
def c7example : Service :=
  { interfaces :=
      [{ name := { value := "Zeta" }, methods := [] },
       { name := { value := "Alpha" }, methods := [] },
       { name := { value := "Mu" }, methods := [] }]
    types := []
    enums := [] }

/-- A mixed-case service used by the C7 counterexample: two interfaces named
`a` and `B`, and one type whose two properties appear in source order
`b`, `a`. -/
def c7mixed : Service :=
  { interfaces :=
      [{ name := { value := "a" }, methods := [] },
       { name := { value := "B" }, methods := [] }]
    types :=
      [{ name := { value := "T" }
         properties :=
           [{ name := { value := "b" }
              value := { kind := "PrimitiveValue", typeName := { value := "string" }
                         isArray := false, rules := [] } },
            { name := { value := "a" }
              value := { kind := "PrimitiveValue", typeName := { value := "string" }
                         isArray := false, rules := [] } }] }]
    enums := [] }

/-- The type of `c7mixed`. -/
def c7mixedType : TypeDef :=
  { name := { value := "T" }
    properties :=
      [{ name := { value := "b" }
         value := { kind := "PrimitiveValue", typeName := { value := "string" }
                    isArray := false, rules := [] } },
       { name := { value := "a" }
         value := { kind := "PrimitiveValue", typeName := { value := "string" }
                    isArray := false, rules := [] } }] }

/-- Claim C7 counterexample: the rendered sibling order is NOT the claimed
case-sensitive ordinal order, and not every sibling level is sorted at all.
With interfaces named `a` and `B` the provider renders `a` before `B`
(`localeCompare` order), although the ordinal comparison places `B` first
(`ordinalCompare "a" "B" = gt`); and the two properties of a type named in
source order `b`, `a` are rendered in that source order, unsorted under
either comparison. -/
theorem C7_counterexample :
    ((loadInterfaceNodes 3 .defer c7mixed "src").map
        (fun ns => ns.map SNode.label) = .ok ["a", "B"]) ∧
    ordinalCompare "a" "B" = .gt ∧
    ((buildTypeNode 3 .defer c7mixed "src" c7mixedType).map
        (fun n => n.children.map SNode.label) = .ok ["b", "a"]) ∧
    ordinalCompare "b" "a" = .gt ∧ localeCompare "b" "a" = 1 := by
  refine ⟨rfl, rfl, rfl, rfl, rfl⟩

/-- Claim C7 as amended: sibling order is deterministic, but it is produced
by the default-locale `localeCompare`, not a case-sensitive ordinal compare,
and only at the interface, method, type, enum, and enum-member levels —
parameter and property siblings keep their source order.  Concretely:
interface nodes are sorted by the comparator and are a permutation of the
service's interfaces, a type node's children keep the property source order,
enum members are rendered comparator-sorted, and interfaces named
`Zeta`, `Alpha`, `Mu` render as `Alpha`, `Mu`, `Zeta`. -/
theorem C7_sorting_amended :
    (∀ fuel st svc sp ns, loadInterfaceNodes fuel st svc sp = .ok ns →
      (ns.map SNode.label).Pairwise (fun a b => localeCompare a b ≤ 0) ∧
      (ns.map SNode.label).Perm (svc.interfaces.map (fun i => i.name.value))) ∧
    (∀ fuel st svc sp int ns, loadMethodNodes fuel st svc sp int = .ok ns →
      (ns.map SNode.label).Pairwise (fun a b => localeCompare a b ≤ 0) ∧
      (ns.map SNode.label).Perm (int.methods.map (fun m => m.name.value))) ∧
    (∀ fuel st svc sp ns, loadTypeNodes fuel st svc sp = .ok ns →
      (ns.map SNode.label).Pairwise (fun a b => localeCompare a b ≤ 0) ∧
      (ns.map SNode.label).Perm (svc.types.map (fun t => t.name.value))) ∧
    (∀ svc sp, ((loadEnumNodes svc sp).map SNode.label).Pairwise
        (fun a b => localeCompare a b ≤ 0) ∧
      ((loadEnumNodes svc sp).map SNode.label).Perm
        (svc.enums.map (fun e => e.name.value))) ∧
    (∀ fuel st svc sp m ps, loadParameterNodes fuel st svc sp m = .ok ps →
      ps.map SNode.label = m.parameters.map (fun p => p.name.value)) ∧
    (∀ fuel st svc sp t n, buildTypeNode fuel st svc sp t = .ok n →
      n.children.map SNode.label = t.properties.map (fun p => p.name.value)) ∧
    (∀ sp e, ((buildEnumNode sp e).children.map SNode.label).Pairwise
        (fun a b => localeCompare a b ≤ 0)) ∧
    ((loadInterfaceNodes 2 .defer c7example "src").map
        (fun ns => ns.map SNode.label) = .ok ["Alpha", "Mu", "Zeta"]) := by
  refine ⟨?_, ?_, ?_, ?_, ?_, ?_, ?_, rfl⟩
  · intro fuel st svc sp ns h
    have hl := loadInterfaceNodes_labels fuel st svc sp ns h
    constructor
    · rw [hl]
      have hs := jsSort_byCmp_sorted (fun (x : Interface) => Sum.inl x.name)
        svc.interfaces
      exact hs.map _ (fun a b hab => hab)
    · rw [hl]
      exact (jsSort_perm _ svc.interfaces).map _
  · intro fuel st svc sp int ns h
    have hl := loadMethodNodes_labels fuel st svc sp int ns h
    constructor
    · rw [hl]
      have hs := jsSort_byCmp_sorted (fun (t : Method) => Sum.inl t.name)
        int.methods
      exact hs.map _ (fun a b hab => hab)
    · rw [hl]
      exact (jsSort_perm _ int.methods).map _
  · intro fuel st svc sp ns h
    have hl := loadTypeNodes_labels fuel st svc sp ns h
    constructor
    · rw [hl]
      have hs := jsSort_byCmp_sorted (fun (t : TypeDef) => Sum.inl t.name)
        svc.types
      exact hs.map _ (fun a b hab => hab)
    · rw [hl]
      exact (jsSort_perm _ svc.types).map _
  · intro svc sp
    constructor
    · rw [loadEnumNodes_labels]
      have hs := jsSort_byCmp_sorted (fun (x : Enum) => Sum.inl x.name)
        svc.enums
      exact hs.map _ (fun a b hab => hab)
    · rw [loadEnumNodes_labels]
      exact (jsSort_perm _ svc.enums).map _
  · intro fuel st svc sp m ps h
    exact loadParameterNodes_labels fuel st svc sp m ps h
  · intro fuel st svc sp t n h
    obtain ⟨ps, hp, hc⟩ := buildTypeNode_children fuel st svc sp t n h
    rw [hc]
    exact loadPropertyNodes_labels _ st svc sp t ps hp
  · intro sp e
    rw [buildEnumNode_members]
    have hs := jsSort_byCmp_sorted (fun (m : EnumMember) => Sum.inr m.content.value)
      e.members
    exact hs.map _ (fun a b hab => hab)

/-- Claim C7 amended witness: the amended theorem applied at a concrete
parameterless method and a concrete propertyless type. -/
theorem C7_sorting_amended_witness :
    (SNode.node "T" (collapsedState .defer) "src" none (some "symbol-object")
        none []).children.map SNode.label =
      ([] : List Property).map (fun p => p.name.value) ∧
    ([] : List SNode).map SNode.label =
      ([] : List Parameter).map (fun p => p.name.value) := by
  constructor
  · exact C7_sorting_amended.2.2.2.2.2.1 2 .defer c7example "src"
      { name := { value := "T" }, properties := [] } _ rfl
  · exact C7_sorting_amended.2.2.2.2.1 1 .defer c7example "src"
      { name := { value := "m" }, parameters := [], returns := none } [] rfl

/-- The self-referential member value of the C8 cyclic service: a complex
value naming type `A`. -/
def c8value : MemberValue :=
  { kind := "ComplexValue", typeName := { value := "A" }, isArray := false
    rules := [] }

/-- The self-referential type of the C8 cyclic service: type `A` with one
property of type `A`. -/
def c8type : TypeDef :=
  { name := { value := "A" }
    properties := [{ name := { value := "p" }, value := c8value }] }

/-- The C8 cyclic service: a single type that directly references itself. -/
def c8svc : Service :=
  { interfaces := [], types := [c8type], enums := [] }

/-- Helper for C8: on the cyclic service the builders exhaust any stack
depth — for every fuel the recursion through
`buildTypeNode → loadPropertyNodes → buildTypedValueNodes → buildTypeNode`
ends in the stack-overflow error. -/
theorem c8_builders_overflow : ∀ (fuel : Nat) (st : ProviderState) (sp : String),
    buildTypeNode fuel st c8svc sp c8type = .error stackOverflowError ∧
    loadPropertyNodes fuel st c8svc sp c8type = .error stackOverflowError ∧
    buildTypedValueNodes fuel st c8svc sp c8value = .error stackOverflowError := by
  intro fuel
  induction fuel with
  | zero => intro st sp; exact ⟨rfl, rfl, rfl⟩
  | succ fuel ih =>
      intro st sp
      obtain ⟨h1, h2, h3⟩ := ih st sp
      refine ⟨?_, ?_, ?_⟩
      · simp only [buildTypeNode, h2, exbind_err]
      · simp only [loadPropertyNodes, mapME]
        simp only [h3, exbind_err]
      · simp only [buildTypedValueNodes]
        rw [show (getTypeByName c8svc c8value.typeName.value) = some c8type from rfl]
        simp only [h1, exbind_err]
        rfl

/-- Helper for C8: on the cyclic service, loading the `Types` group ends in
the stack-overflow error for every fuel. -/
theorem c8_loadTypeNodes_overflow : ∀ (fuel : Nat) (st : ProviderState) (sp : String),
    loadTypeNodes fuel st c8svc sp = .error stackOverflowError := by
  intro fuel st sp
  cases fuel with
  | zero => rfl
  | succ fuel =>
      simp only [loadTypeNodes]
      rw [show (jsSort (byCmp (fun (t : TypeDef) => Sum.inl t.name))
        c8svc.types) = [c8type] from rfl]
      simp only [mapME, (c8_builders_overflow fuel st sp).1]

/-- Claim C8 as amended: a thrown stack overflow is caught at the provider
boundary (never propagated), the service is discarded, and the provider
renders — in place of the three top-level groups — exactly TWO error leaf
nodes: a generic `FATAL_ERROR` node carrying the overflow message, followed
by the explanatory node describing the cyclical type reference. -/
theorem C8_cycle_amended (fuel : Nat) (st : ProviderState) (sp : String)
    (svc : Service) (ifs : List SNode)
    (hi : loadInterfaceNodes fuel st svc sp = .ok ifs)
    (ht : loadTypeNodes fuel st svc sp = .error stackOverflowError) :
    getChildren st sp (initProvider fuel st sp (some svc)) none =
      [SNode.node ("FATAL_ERROR: " ++ stackOverflowError.message) .None sp
         none (some "error") none [],
       SNode.node ("FATAL_ERROR: " ++ cyclicMessage) .None sp none
         (some "error") none []] := by
  have hinit : initProvider fuel st sp (some svc) =
      ⟨[{ code := "FATAL_ERROR", message := stackOverflowError.message },
        { code := "FATAL_ERROR", message := cyclicMessage }], false,
        [], [], []⟩ := by
    simp only [initProvider, hi, ht, exbind_ok, exbind_err]
    rw [show strIncludes stackOverflowError.message
      "Maximum call stack size exceeded" = true from rfl]
    rfl
  rw [hinit]
  rfl

/-- Claim C8 counterexample: for the concrete self-referential service the
provider renders TWO error leaf nodes, not the single explanatory node the
claim describes — the generic `FATAL_ERROR: Maximum call stack size
exceeded` node precedes the cyclical-type-reference node. -/
theorem C8_counterexample :
    (getChildren .defer "src" (initProvider 7 .defer "src" (some c8svc))
        none).length = 2 ∧
    (getChildren .defer "src" (initProvider 7 .defer "src" (some c8svc))
        none).map SNode.label =
      ["FATAL_ERROR: Maximum call stack size exceeded",
       "FATAL_ERROR: Service contains a cyclical type references which is not yet supported by the service explorer."] := by
  have hinit : initProvider 7 .defer "src" (some c8svc) =
      ⟨[{ code := "FATAL_ERROR", message := stackOverflowError.message },
        { code := "FATAL_ERROR", message := cyclicMessage }], false,
        [], [], []⟩ := by
    simp only [initProvider, c8_loadTypeNodes_overflow 7 .defer "src"]
    rw [show loadInterfaceNodes 7 .defer c8svc "src" = .ok [] from rfl]
    simp only [exbind_ok, exbind_err]
    rfl
  rw [hinit]
  exact ⟨rfl, rfl⟩

/-- Claim C8 amended witness: the amended theorem applied to the concrete
cyclic service at stack depth 3. -/
theorem C8_cycle_amended_witness :
    getChildren .defer "s" (initProvider 3 .defer "s" (some c8svc)) none =
      [SNode.node ("FATAL_ERROR: " ++ stackOverflowError.message) .None "s"
         none (some "error") none [],
       SNode.node ("FATAL_ERROR: " ++ cyclicMessage) .None "s" none
         (some "error") none []] :=
  C8_cycle_amended 3 .defer "s" c8svc [] rfl
    (c8_loadTypeNodes_overflow 3 .defer "s")
